import Mathlib


/-!
Shallow embedding of the scraper core of `job_posting_scraper.py` (and of the
jitter expression shared with `job_scraper_enhanced.py`), together with
theorems settling the specification claims about it.

Conventions of the embedding:
* Machine strings are Lean `String` / `List Char`.
* HTTP / BeautifulSoup plumbing is abstracted at its call boundaries: a search
  result page is represented by the list of candidate anchor URLs it yields
  (already resolved against the base URL), a detail page by the inputs of the
  three skill-extraction tiers, and file I/O for the prior record by an
  `Option`/`Except` value.
* Python floats are embedded as exact rationals (`ℚ`); Python integers as `ℕ`.
-/

/-! ## Worker-pool sizing (`JobPostingScraper.__init__`, lines 16-26;
`get_job_urls_from_search_pages`, line 301; `run`, line 442) -/

/-- Python truthiness-based `or` on an optional integer: `v or d` yields `d`
when `v` is `None` or `0`. -/
def pyOrNat (v : Option Nat) (d : Nat) : Nat :=
  match v with
  | some n => if n = 0 then d else n
  | none => d

/-- `self.max_workers = max_workers or os.cpu_count() or 4` (line 20).
`max_workers` and `os.cpu_count()` may each be `None`. -/
def init_max_workers (max_workers : Option Nat) (cpu_count : Option Nat) : Nat :=
  pyOrNat max_workers (pyOrNat cpu_count 4)

/-- Pool size of the page-fetch phase:
`ThreadPoolExecutor(max_workers=min(self.max_workers, len(page_data)))`
(line 301). -/
def page_fetch_pool_size (max_workers num_page_tasks : Nat) : Nat :=
  min max_workers num_page_tasks

/-- Pool size of the job-detail phase:
`ThreadPoolExecutor(max_workers=self.max_workers)` (line 442); the task count
does not enter the expression. -/
def detail_fetch_pool_size (max_workers _num_job_tasks : Nat) : Nat :=
  max_workers

/-! ## Pre-request jitter (`_fetch_page_worker` line 232, `_scrape_job_worker`
line 336, and `_scrape_worker` line 81 of `job_scraper_enhanced.py`, which all
contain the same expression
`delay * (0.5 + 0.5 * threading.current_thread().ident % 10 / 10)`).
By Python precedence `*`, `%`, `/` associate left, so the factor is
`0.5 + (((0.5 * ident) % 10) / 10)`.  Floats are embedded as exact
rationals; the thread identity `ident` is a nonnegative integer. -/

/-- Python float `%`: `x % y = x - y * floor(x / y)` (for `y > 0`). -/
def pyFloatMod (x y : ℚ) : ℚ := x - y * ⌊x / y⌋

/-- The jitter factor `0.5 + 0.5 * ident % 10 / 10` with Python's left-to-right
precedence for `*`, `%`, `/`. -/
def jitter_factor (ident : Nat) : ℚ :=
  1/2 + pyFloatMod ((1/2) * ident) 10 / 10

/-- The pre-request sleep duration `delay * (0.5 + 0.5 * ident % 10 / 10)`. -/
def worker_sleep (delay : ℚ) (ident : Nat) : ℚ :=
  delay * jitter_factor ident

/-! ## Job records and state reconciliation (`scrape_job_details` lines
93-127, `check_status_change` lines 353-387, `save_job_data` lines 389-416).

File I/O is abstracted: the prior persisted record for the identifier is
`none` when `os.path.exists(filepath)` is false, and `some r` when the file
exists, where `r : Except Unit JobData` is `Except.ok prev` for a successful
`json.load` of a well-typed record and `Except.error ()` when reading or
parsing raises (corrupt or unreadable file).  Timestamps
(`datetime.now().isoformat()`) are opaque strings passed in explicitly. -/

/-- One entry of `status_history`. -/
structure HistEntry where
  status : String
  timestamp : String
  reason : String
deriving DecidableEq, Repr

/-- The fields of the per-job JSON record that the reconciliation claims
concern (`job_data` initialisation, lines 93-106; extraction of the remaining
optional text fields is orthogonal to status handling and elided). -/
structure JobData where
  job_id : String
  url : String
  scraped_at : String
  title : String
  is_active : Bool
  status_history : List HistEntry
deriving DecidableEq, Repr

/-- The record built by `scrape_job_details` (lines 93-127): defaults
`is_active = True`, `status_history = []`; the unavailable-job short-circuit
(lines 118-127) fires when the extracted title equals the sentinel
`"Job Unavailable"`, setting `is_active = False` and appending one
`inactive` entry with reason `"Job marked as unavailable"`. -/
def fresh_job_record (job_id url title now : String) : JobData :=
  let base : JobData :=
    { job_id := job_id, url := url, scraped_at := now, title := title,
      is_active := true, status_history := [] }
  if title = "Job Unavailable" then
    { base with
        is_active := false
        status_history := [⟨"inactive", now, "Job marked as unavailable"⟩] }
  else base

/-- `check_status_change` (lines 353-387): on a successful read of the
existing record, copy its `status_history` into the new record and append one
transition entry when the activity flag flipped; when the read raises, return
the new record unchanged (`except: pass`, lines 383-385). -/
def check_status_change (new_job_data : JobData)
    (readResult : Except Unit JobData) (now : String) : JobData :=
  match readResult with
  | Except.error _ => new_job_data
  | Except.ok existing_data =>
    let base := { new_job_data with status_history := existing_data.status_history }
    if existing_data.is_active && !new_job_data.is_active then
      { base with status_history := base.status_history ++
          [⟨"inactive", now, "Job became unavailable during re-scrape"⟩] }
    else if !existing_data.is_active && new_job_data.is_active then
      { base with status_history := base.status_history ++
          [⟨"active", now, "Job became available again during re-scrape"⟩] }
    else base

/-- `save_job_data` (lines 389-416): `none` models the `return False` on a
falsy `job_id`; otherwise `some r` is the record written to
`{output_dir}/{job_id}.json`.  `existing = none` models a missing file (first
discovery: append one `active`/`"Job first discovered"` entry iff the record
is active); `existing = some res` models an existing file whose read outcome
is `res`. -/
def save_job_data (job_data : JobData)
    (existing : Option (Except Unit JobData)) (now : String) : Option JobData :=
  if job_data.job_id = "" then none
  else some (match existing with
    | some res => check_status_change job_data res now
    | none =>
      if job_data.is_active then
        { job_data with status_history := job_data.status_history ++
            [⟨"active", now, "Job first discovered"⟩] }
      else job_data)

/-! ## Repeated observations of one job identifier across runs.

`run` persists each scraped record via `save_job_data`; for a fixed
identifier the persisted file is read back as the prior record on the next
scrape.  An `Observation` records what one such cycle saw: whether the detail
page showed the job as available (`active`), whether reading the previously
persisted file succeeded (`readOk`), and the timestamp. -/

structure Observation where
  active : Bool
  readOk : Bool
  time : String

/-- One extract-reconcile-persist cycle for a single identifier: build the
fresh record (`scrape_job_details`), then `save_job_data` against the current
persisted state.  A failed save (falsy identifier) leaves the file as it
was. -/
def scrapeStep (job_id url : String) (st : Option JobData) (o : Observation) :
    Option JobData :=
  let title := if o.active then "Virtual Assistant" else "Job Unavailable"
  let fresh := fresh_job_record job_id url title o.time
  let prior : Option (Except Unit JobData) :=
    match st with
    | none => none
    | some prev => some (if o.readOk then Except.ok prev else Except.error ())
  match save_job_data fresh prior o.time with
  | some r => some r
  | none => st

/-- The persisted file contents after a sequence of observations of one
identifier, starting from no file on disk. -/
def runScraper (job_id url : String) (obss : List Observation) : Option JobData :=
  obss.foldl (scrapeStep job_id url) none

/-- The status history stored on disk (empty when no file exists). -/
def persistedHistory : Option JobData → List HistEntry
  | none => []
  | some j => j.status_history

/-- The history-entry status string corresponding to an activity flag. -/
def statusOf (b : Bool) : String := if b then "active" else "inactive"

/-- Invariant of a persisted record: consecutive history entries have distinct
statuses, and a nonempty history ends in the entry matching `is_active`. -/
def histOk (j : JobData) : Prop :=
  List.Chain' (fun a b => a.status ≠ b.status) j.status_history ∧
  (j.status_history = [] ∨
    (j.status_history.getLast?).map HistEntry.status = some (statusOf j.is_active))

/-- Invariant of the on-disk state. -/
def stOk : Option JobData → Prop
  | none => True
  | some j => histOk j

/-- A concrete active record as built by `scrape_job_details` for a live
detail page. -/
def sampleActive : JobData :=
  fresh_job_record "1422402" "https://www.onlinejobs.ph/jobseekers/job/Writer-1422402"
    "Facebook Media Buyer" "2024-01-01T00:00:00"

/-- The record persisted by a first save of an active scrape at time `t1`. -/
def rec77a : JobData :=
  { job_id := "77", url := "u", scraped_at := "t1", title := "Virtual Assistant",
    is_active := true, status_history := [⟨"active", "t1", "Job first discovered"⟩] }

/-- The record persisted by a second identical save at time `t2`. -/
def rec77b : JobData :=
  { job_id := "77", url := "u", scraped_at := "t2", title := "Virtual Assistant",
    is_active := true, status_history := [⟨"active", "t1", "Job first discovered"⟩] }

/-- A prior record that is active with exactly one history entry. -/
def priorActiveOne : JobData :=
  { job_id := "88", url := "u", scraped_at := "t0", title := "Writer",
    is_active := true, status_history := [⟨"active", "t0", "Job first discovered"⟩] }

/-- A fresh record observing job `88` as unavailable at time `t1`. -/
def freshGone : JobData := fresh_job_record "88" "u" "Job Unavailable" "t1"

/-! ## Total-result count and page count (`extract_total_jobs_from_page`,
lines 218-224, and the page computation of `get_job_urls_from_search_pages`,
lines 256-269).

The regex `Displaying\s+\d+\s+out\s+of\s+(\d+)\+?\s+jobs` (IGNORECASE) is
embedded as an executable matcher.  Every character class in the pattern is
disjoint from its successor literal, so greedy matching is maximal-munch and
`re.search` is the first position at which the whole pattern matches. -/

/-- Python `\d` restricted to ASCII decimal digits. -/
def pyDigit (c : Char) : Bool := '0' ≤ c && c ≤ '9'

/-- Python `\s` restricted to ASCII whitespace. -/
def pySpace (c : Char) : Bool :=
  c = ' ' || c = '\t' || c = '\n' || c = '\r' || c = '\x0b' || c = '\x0c'

/-- Case-insensitive match of a subject character `c` against a lowercase
pattern character `p` (IGNORECASE on ASCII letters). -/
def charLowerEq (c p : Char) : Bool :=
  c = p || ('A' ≤ c && c ≤ 'Z' && c.toNat + 32 = p.toNat)

/-- Match a literal token case-insensitively at the head of the subject,
returning the remaining subject. -/
def ciTok : List Char → List Char → Option (List Char)
  | [], s => some s
  | _ :: _, [] => none
  | p :: ps, c :: cs => if charLowerEq c p then ciTok ps cs else none

/-- `\s+`: at least one whitespace character, maximal munch. -/
def ws1 : List Char → Option (List Char)
  | [] => none
  | c :: cs => if pySpace c then some (cs.dropWhile pySpace) else none

/-- `\d+`: at least one digit, maximal munch; returns the digit run and the
remaining subject. -/
def digits1 : List Char → Option (List Char × List Char)
  | [] => none
  | c :: cs =>
    if pyDigit c then some (c :: cs.takeWhile pyDigit, cs.dropWhile pyDigit)
    else none

/-- Match the whole pattern at the head of `s`, returning the captured
total-count digit run. -/
def matchTotalAt (s : List Char) : Option (List Char) :=
  (ciTok ("displaying").toList s).bind fun s1 =>
  (ws1 s1).bind fun s2 =>
  (digits1 s2).bind fun d1 =>
  (ws1 d1.2).bind fun s3 =>
  (ciTok ("out").toList s3).bind fun s4 =>
  (ws1 s4).bind fun s5 =>
  (ciTok ("of").toList s5).bind fun s6 =>
  (ws1 s6).bind fun s7 =>
  (digits1 s7).bind fun d2 =>
  let s8 := match d2.2 with
    | '+' :: t => t
    | t => t
  (ws1 s8).bind fun s9 =>
  (ciTok ("jobs").toList s9).map fun _ => d2.1

/-- `re.search`: the captured group of the leftmost match, if any. -/
def searchTotalJobs : List Char → Option (List Char)
  | [] => none
  | c :: rest =>
    match matchTotalAt (c :: rest) with
    | some d => some d
    | none => searchTotalJobs rest

/-- `int()` on a run of ASCII digits. -/
def digitsToNat (l : List Char) : Nat :=
  l.foldl (fun n c => 10 * n + (c.toNat - ('0').toNat)) 0

/-- `extract_total_jobs_from_page` (lines 218-224): the captured count, `0`
when the pattern is absent. -/
def extract_total_jobs_from_page (html : List Char) : Nat :=
  match searchTotalJobs html with
  | some d => digitsToNat d
  | none => 0

/-- Lines 263-269: `(total_jobs + 29) // 30` pages when `total_jobs > 0`,
else the fallback of 100 pages. -/
def compute_total_pages (total_jobs : Nat) : Nat :=
  if 0 < total_jobs then (total_jobs + 29) / 30 else 100

/-- The page count computed from the first page's HTML. -/
def get_total_pages (html : List Char) : Nat :=
  compute_total_pages (extract_total_jobs_from_page html)

/-! ## Job URL and identifier extraction (`extract_job_id_from_url` lines
62-75, `extract_job_urls_from_page` lines 39-60,
`get_job_urls_from_search_pages` lines 294-329).

`extract_job_id_from_url` runs `re.search` with pattern 1
`/job/.*?-(\d+)/?$` and then pattern 2 `/job/(\d+)/?$`.  Both anchor at the
end of the string (`$` also matches just before one final newline, and `/?`
eats at most one trailing slash), so the capture is the maximal trailing
digit run; pattern 1 additionally needs the run to be preceded by `-` with a
`/job/` occurrence before it on the same (`.` does not cross newlines) final
line, pattern 2 needs `/job/` immediately before the run. -/

/-- Drop one final occurrence of `mark`. -/
def dropLastChar (mark : Char) (s : List Char) : List Char :=
  if s.getLast? = some mark then s.dropLast else s

/-- The maximal all-digit suffix. -/
def trailingDigits (s : List Char) : List Char :=
  (s.reverse.takeWhile pyDigit).reverse

/-- Substring test: does `pat` occur contiguously in the subject? -/
def hasSub (pat : List Char) : List Char → Bool
  | [] => pat.isPrefixOf []
  | c :: t => pat.isPrefixOf (c :: t) || hasSub pat t

/-- The suffix after the last newline (the span a `.`-wildcard can cover). -/
def afterLastNewline (s : List Char) : List Char :=
  (s.reverse.takeWhile (fun c => c != '\n')).reverse

/-- `extract_job_id_from_url` (lines 62-75). -/
def extract_job_id_from_url (url : String) : Option String :=
  let s := dropLastChar '/' (dropLastChar '\n' url.toList)
  let d := trailingDigits s
  let pre := s.take (s.length - d.length)
  if d.isEmpty then none
  else if (pre.getLast? == some '-') &&
      hasSub ("/job/").toList (afterLastNewline pre.dropLast) then
    some (String.mk d)
  else if ("/job/").toList.isSuffixOf pre then some (String.mk d)
  else none

/-- The anchor filter `a[href*="/jobseekers/job/"]` / `'/jobseekers/job/' in
href` (lines 44, 51). -/
def jobsLinkMarker : List Char := ("/jobseekers/job/").toList

/-- `job_urls_by_id[job_id] = full_url` with the tie-break of line 57: keep
the stored URL unless the new one is strictly longer.  Python dicts keep the
original insertion position on value replacement. -/
def updateAssoc : List (String × String) → String → String → List (String × String)
  | [], jid, u => [(jid, u)]
  | (k, v) :: rest, jid, u =>
    if k = jid then
      (if v.length < u.length then (k, u) else (k, v)) :: rest
    else (k, v) :: updateAssoc rest jid u

/-- The body of the `for link in job_links` loop (lines 49-58) for one
candidate URL. -/
def pageStep (acc : List (String × String)) (href : String) :
    List (String × String) :=
  if hasSub jobsLinkMarker href.toList then
    match extract_job_id_from_url href with
    | some jid => updateAssoc acc jid href
    | none => acc
  else acc

/-- `extract_job_urls_from_page` (lines 39-60), on the page's candidate
anchor URLs (already resolved against the base URL):
`list(job_urls_by_id.values())`. -/
def extract_job_urls_from_page (links : List String) : List String :=
  (links.foldl pageStep []).map Prod.snd

/-- `all_job_urls.add(job_url)` guarded by `job_url not in all_job_urls`
(lines 316-319): set insertion keyed by the URL *string*. -/
def addUnique (acc : List String) (u : String) : List String :=
  if u ∈ acc then acc else acc ++ [u]

/-- `get_job_urls_from_search_pages` (lines 294-329) restricted to its
aggregation logic: the first page's URLs seed the set, every further page's
URLs are added with string-membership dedup. -/
def get_job_urls_from_search_pages (pages : List (List String)) : List String :=
  match pages with
  | [] => []
  | first :: rest =>
    rest.foldl (fun a p => (extract_job_urls_from_page p).foldl addUnique a)
      ((extract_job_urls_from_page first).foldl addUnique [])

/-- Invariant of the per-page accumulator dict: every stored URL extracts to
its own key, and keys are distinct. -/
def goodAcc (acc : List (String × String)) : Prop :=
  (∀ p ∈ acc, extract_job_id_from_url p.2 = some p.1) ∧
  (acc.map Prod.fst).Nodup

/-! ## Skill extraction (`scrape_job_details`, lines 157-207). -/

/-- Python `str.strip()`: remove leading and trailing whitespace. -/
def pyStrip (s : List Char) : List Char :=
  ((s.dropWhile pySpace).reverse.dropWhile pySpace).reverse

/-- Python `str.lower()` on ASCII letters. -/
def asciiLower (c : Char) : Char :=
  if 'A' ≤ c && c ≤ 'Z' then Char.ofNat (c.toNat + 32) else c

/-- The footer-leakage guard's pattern. -/
def copyrightPat : List Char := ("copyright").toList

/-- The list comprehension of lines 185-189 and 203-207:
`[skill.strip() for skill in skills if skill.strip() and
len(skill.strip()) > 2 and 'copyright' not in skill.lower()]`. -/
def skill_filter (skills : List String) : List String :=
  (skills.filter (fun sk =>
      !(pyStrip sk.toList).isEmpty &&
      decide (2 < (pyStrip sk.toList).length) &&
      !hasSub copyrightPat (sk.toList.map asciiLower))).map
    (fun sk => String.mk (pyStrip sk.toList))

/-- The filtered output of a fallback tier: the post-filtered split candidate
list when the tier's section was located (`some`), nothing otherwise. -/
def tier_result (t : Option (List String)) : List String :=
  match t with
  | some sk => skill_filter sk
  | none => []

/-- The three-tier skill extraction (lines 157-207), abstracted at the
BeautifulSoup boundary: `tier1_texts` are the `get_text(strip=True)` texts of
the `card-worker-topskill` anchors, used verbatim when any such anchor exists
(lines 159-161, no post-filter); `tier2_split` is the delimiter-split
candidate list of the section-following fallback (lines 163-189), `none` when
the section is missing or its accumulated text is empty; `tier3_split`
likewise for the raw-text fallback (lines 191-207).  Each later tier runs
only while `skill_requirements` is still the empty list. -/
def scrape_skills (tier1_texts : List String)
    (tier2_split tier3_split : Option (List String)) : List String :=
  if tier1_texts ≠ [] then tier1_texts
  else if tier_result tier2_split ≠ [] then tier_result tier2_split
  else tier_result tier3_split

/-- Closed form of the jitter factor: `1/2 + (ident mod 20) / 20`. -/
theorem jitter_factor_eq (ident : Nat) :
    jitter_factor ident = 1/2 + ((ident % 20 : Nat) : ℚ) / 20 := by
  have h1 : jitter_factor ident = 1/2 + Int.fract ((ident : ℚ) / ((20 : ℕ) : ℚ)) := by
    unfold jitter_factor pyFloatMod Int.fract
    have h : ((1/2 : ℚ) * ident) / 10 = (ident : ℚ) / ((20 : ℕ) : ℚ) := by
      push_cast
      ring
    rw [h]
    ring
  rw [h1, Int.fract_div_natCast_eq_div_natCast_mod]
  push_cast
  ring

/-- C6 (as stated, detail phase): the job-detail-fetch phase sizes its pool as
`self.max_workers` alone (line 442), not `min(configured_max_workers,
task_count)`: with 8 configured workers and 2 tasks the pool has 8 workers. -/
theorem claim_C6_counterexample :
    detail_fetch_pool_size 8 2 = 8 ∧ min 8 2 = 2 ∧
      ¬ detail_fetch_pool_size 8 2 = min 8 2 := by
  decide

/-- C6 (amended): the page-fetch phase uses pool size
`min(configured_max_workers, task_count)`; the job-detail phase uses
`configured_max_workers` regardless of task count; when no worker count is
configured the worker count defaults to the host CPU count, or to `4` when the
CPU count is unavailable; a configured nonzero count takes precedence. -/
theorem claim_C6 (mw tasks c m : Nat) :
    page_fetch_pool_size mw tasks = min mw tasks ∧
    detail_fetch_pool_size mw tasks = mw ∧
    init_max_workers none (some (c + 1)) = c + 1 ∧
    init_max_workers (some (m + 1)) (some (c + 1)) = m + 1 ∧
    init_max_workers none none = 4 := by
  refine ⟨rfl, rfl, ?_, ?_, rfl⟩ <;> simp [init_max_workers, pyOrNat]

/-- C3 (as stated): false. Python's `*`, `%`, `/` share precedence and
associate left, so the sleep factor is `0.5 + ((0.5 * ident) % 10) / 10`;
at worker identity `19` it is `29/20 = 1.45`, outside `[0.5, 1.0]`. -/
theorem claim_C3_counterexample :
    worker_sleep 1 19 = jitter_factor 19 ∧ jitter_factor 19 = 29/20 ∧
      ¬ jitter_factor 19 ≤ 1 := by
  have h : jitter_factor 19 = 29/20 := by
    rw [jitter_factor_eq]
    norm_num
  refine ⟨by rw [worker_sleep, one_mul], h, ?_⟩
  rw [h]
  norm_num

/-- C3 (amended): for every worker-thread identity and every delay `d ≥ 0`,
the pre-request sleep equals `d` times a jitter factor derived from the worker
identity, and that factor lies in the closed interval `[1/2, 29/20]`
(in exact arithmetic; the spec's upper bound `1.0` is exceeded). -/
theorem claim_C3 (ident : Nat) (delay : ℚ) (hd : 0 ≤ delay) :
    (1/2 ≤ jitter_factor ident ∧ jitter_factor ident ≤ 29/20) ∧
    worker_sleep delay ident = delay * jitter_factor ident ∧
    delay * (1/2) ≤ worker_sleep delay ident ∧
    worker_sleep delay ident ≤ delay * (29/20) := by
  have hk : (ident % 20 : Nat) ≤ 19 := by omega
  have hkq : ((ident % 20 : Nat) : ℚ) ≤ 19 := by exact_mod_cast hk
  have hkq0 : (0 : ℚ) ≤ ((ident % 20 : Nat) : ℚ) := by positivity
  have hlo : 1/2 ≤ jitter_factor ident := by
    rw [jitter_factor_eq]
    linarith
  have hhi : jitter_factor ident ≤ 29/20 := by
    rw [jitter_factor_eq]
    linarith
  refine ⟨⟨hlo, hhi⟩, rfl, ?_, ?_⟩
  · unfold worker_sleep
    nlinarith
  · unfold worker_sleep
    nlinarith

/-- Witness for the amended C3 at identity `3` and delay `2`. -/
theorem claim_C3_witness :
    (1/2 ≤ jitter_factor 3 ∧ jitter_factor 3 ≤ 29/20) ∧
    worker_sleep 2 3 = 2 * jitter_factor 3 ∧
    (2 : ℚ) * (1/2) ≤ worker_sleep 2 3 ∧
    worker_sleep 2 3 ≤ 2 * (29/20) :=
  claim_C3 3 2 (by norm_num)

theorem chain'_append_single {l : List HistEntry} {e : HistEntry}
    (hc : List.Chain' (fun a b => a.status ≠ b.status) l)
    (hlast : ∀ x ∈ l.getLast?, x.status ≠ e.status) :
    List.Chain' (fun a b => a.status ≠ b.status) (l ++ [e]) := by
  rw [List.chain'_append]
  refine ⟨hc, List.chain'_singleton _, ?_⟩
  intro x hx y hy
  simp only [List.head?_cons, Option.mem_def, Option.some.injEq] at hy
  subst hy
  exact hlast x hx

theorem fresh_active_eq (jid url t : String) :
    fresh_job_record jid url "Virtual Assistant" t =
      { job_id := jid, url := url, scraped_at := t, title := "Virtual Assistant",
        is_active := true, status_history := [] } := by
  simp [fresh_job_record]

theorem fresh_unavailable_eq (jid url t : String) :
    fresh_job_record jid url "Job Unavailable" t =
      { job_id := jid, url := url, scraped_at := t, title := "Job Unavailable",
        is_active := false,
        status_history := [⟨"inactive", t, "Job marked as unavailable"⟩] } := by
  simp [fresh_job_record]

theorem fresh_job_id_eq (jid url title t : String) :
    (fresh_job_record jid url title t).job_id = jid := by
  unfold fresh_job_record
  split <;> rfl

theorem scrapeStep_ok (jid url : String) (o : Observation) (st : Option JobData)
    (h : stOk st) : stOk (scrapeStep jid url st o) := by
  rcases o with ⟨active, readOk, time⟩
  unfold scrapeStep
  by_cases hjid : jid = ""
  · simp only [save_job_data, fresh_job_id_eq, hjid, if_pos rfl]
    exact h
  · cases active with
    | false =>
      simp only [Bool.false_eq_true, if_false, fresh_unavailable_eq]
      cases st with
      | none =>
        simp only [save_job_data, hjid, if_neg hjid]
        constructor
        · exact List.chain'_singleton _
        · right
          rfl
      | some prev =>
        cases readOk with
        | false =>
          simp only [Bool.false_eq_true, if_false, save_job_data, hjid, if_neg hjid,
            check_status_change]
          constructor
          · exact List.chain'_singleton _
          · right
            rfl
        | true =>
          simp only [if_true, save_job_data, hjid, if_neg hjid, check_status_change]
          have hinv : histOk prev := h
          cases hprev : prev.is_active with
          | false =>
            simp only [hprev, Bool.false_and, Bool.not_false, if_false, Bool.and_false,
              Bool.false_eq_true]
            exact ⟨hinv.1, hinv.2.imp id (by intro hh; rw [hprev] at hh; exact hh)⟩
          | true =>
            simp only [hprev, Bool.true_and, Bool.not_false, Bool.not_true]
            constructor
            · refine chain'_append_single hinv.1 ?_
              intro x hx
              rcases hinv.2 with hemp | hlast
              · rw [hemp] at hx
                simp at hx
              · rw [hprev] at hlast
                simp only [Option.mem_def] at hx
                rw [hx] at hlast
                simp [statusOf] at hlast
                rw [hlast]
                simp
            · right
              simp [List.getLast?_concat, statusOf]
    | true =>
      simp only [if_true, fresh_active_eq]
      cases st with
      | none =>
        simp only [save_job_data, hjid, if_neg hjid]
        constructor
        · exact List.chain'_singleton _
        · right
          rfl
      | some prev =>
        cases readOk with
        | false =>
          simp only [Bool.false_eq_true, if_false, save_job_data, hjid, if_neg hjid,
            check_status_change]
          exact ⟨List.chain'_nil, Or.inl rfl⟩
        | true =>
          simp only [if_true, save_job_data, hjid, if_neg hjid, check_status_change]
          have hinv : histOk prev := h
          cases hprev : prev.is_active with
          | true =>
            simp only [hprev, Bool.true_and, Bool.not_true, Bool.and_false, if_false,
              Bool.false_eq_true, Bool.false_and]
            exact ⟨hinv.1, hinv.2.imp id (by intro hh; rw [hprev] at hh; exact hh)⟩
          | false =>
            simp only [hprev, Bool.false_and, Bool.not_false, Bool.true_and,
              Bool.false_eq_true, if_false]
            constructor
            · refine chain'_append_single hinv.1 ?_
              intro x hx
              rcases hinv.2 with hemp | hlast
              · rw [hemp] at hx
                simp at hx
              · rw [hprev] at hlast
                simp only [Option.mem_def] at hx
                rw [hx] at hlast
                simp [statusOf] at hlast
                rw [hlast]
                simp
            · right
              simp [List.getLast?_concat, statusOf]

/-- C2: across every sequence of extract-reconcile-persist cycles for one job
identifier (with arbitrary interleaving of availability flips and read
failures of the prior file), the persisted `status_history` never contains two
consecutive entries with the same status value. -/
theorem claim_C2 (job_id url : String) (obss : List Observation) :
    List.Chain' (fun a b => a.status ≠ b.status)
      (persistedHistory (runScraper job_id url obss)) := by
  have key : ∀ (l : List Observation) (st : Option JobData), stOk st →
      stOk (l.foldl (scrapeStep job_id url) st) := by
    intro l
    induction l with
    | nil => intro st hst; exact hst
    | cons o rest ih => intro st hst; exact ih _ (scrapeStep_ok _ _ _ _ hst)
  have h := key obss none trivial
  unfold runScraper
  cases hres : obss.foldl (scrapeStep job_id url) none with
  | none => exact List.chain'_nil
  | some j =>
    rw [hres] at h
    have h' : histOk j := h
    exact h'.1

/-- C5 (as stated): false.  When the prior file exists but cannot be read,
`check_status_change` returns the fresh record unchanged (`except: pass`),
so an active fresh record is persisted with an empty `status_history`,
whereas the genuinely-new-record path appends the single
"Job first discovered" entry: the two persisted results differ. -/
theorem claim_C5_counterexample :
    (save_job_data sampleActive (some (Except.error ())) "2024-01-01T00:00:00").map
        JobData.status_history = some [] ∧
    (save_job_data sampleActive none "2024-01-01T00:00:00").map JobData.status_history =
      some [⟨"active", "2024-01-01T00:00:00", "Job first discovered"⟩] ∧
    save_job_data sampleActive (some (Except.error ())) "2024-01-01T00:00:00" ≠
      save_job_data sampleActive none "2024-01-01T00:00:00" := by
  decide

/-- C5 (amended): a failed read of the prior record does not fail the save:
the fresh record is persisted exactly as it is (history neither copied nor
extended).  This differs from the genuinely-new-record path, which appends
the "Job first discovered" entry to a fresh active record. -/
theorem claim_C5 (job : JobData) (t : String) (hid : job.job_id ≠ "") :
    save_job_data job (some (Except.error ())) t = some job ∧
    (job.is_active = true →
      save_job_data job none t =
        some { job with status_history := job.status_history ++
            [⟨"active", t, "Job first discovered"⟩] }) := by
  constructor
  · simp [save_job_data, check_status_change, hid]
  · intro ha
    simp [save_job_data, hid, ha]

/-- Witness for the amended C5 at a concrete active record. -/
theorem claim_C5_witness :
    save_job_data sampleActive (some (Except.error ())) "2024-02-02T00:00:00" =
      some sampleActive ∧
    (sampleActive.is_active = true →
      save_job_data sampleActive none "2024-02-02T00:00:00" =
        some { sampleActive with status_history := sampleActive.status_history ++
            [⟨"active", "2024-02-02T00:00:00", "Job first discovered"⟩] }) :=
  claim_C5 sampleActive "2024-02-02T00:00:00" (by decide)

/-- C7: reconciliation is idempotent on repeated identical observations.
Persisting the same active record twice in a row (no prior history) yields a
`status_history` with exactly the one first-discovery entry, and in general
when the fresh record's `is_active` equals the prior persisted value no entry
is appended (the prior history is copied verbatim). -/
theorem claim_C7 :
    (∀ (jid url t1 t2 : String) (r1 r2 : JobData), jid ≠ "" →
      save_job_data (fresh_job_record jid url "Virtual Assistant" t1) none t1 = some r1 →
      save_job_data (fresh_job_record jid url "Virtual Assistant" t2)
          (some (Except.ok r1)) t2 = some r2 →
      r2.status_history = [⟨"active", t1, "Job first discovered"⟩]) ∧
    (∀ (newJob prior : JobData) (t : String), newJob.is_active = prior.is_active →
      (check_status_change newJob (Except.ok prior) t).status_history =
        prior.status_history) := by
  constructor
  · intro jid url t1 t2 r1 r2 hjid h1 h2
    simp only [save_job_data, fresh_job_id_eq, if_neg hjid, fresh_active_eq,
      Option.some.injEq] at h1 h2
    subst h1
    simp only [check_status_change] at h2
    simp at h2
    subst h2
    rfl
  · intro newJob prior t hact
    unfold check_status_change
    cases hp : prior.is_active with
    | true =>
      rw [hp] at hact
      simp [hact, hp]
    | false =>
      rw [hp] at hact
      simp [hact, hp]

/-- Witness for C7 on concrete records. -/
theorem claim_C7_witness :
    rec77b.status_history = [⟨"active", "t1", "Job first discovered"⟩] ∧
    (check_status_change rec77a (Except.ok rec77a) "t9").status_history =
      rec77a.status_history :=
  ⟨claim_C7.1 "77" "u" "t1" "t2" rec77a rec77b (by decide) (by decide) (by decide),
   claim_C7.2 rec77a rec77a "t9" rfl⟩

/-- C8 (as stated): false on the reason string.  The appended entry's reason
is the literal `"Job became unavailable during re-scrape"` (line 371), not
`"became unavailable during re-scrape"` as the claim quotes it. -/
theorem claim_C8_counterexample :
    (check_status_change freshGone (Except.ok priorActiveOne) "t1").status_history =
      [⟨"active", "t0", "Job first discovered"⟩,
       ⟨"inactive", "t1", "Job became unavailable during re-scrape"⟩] ∧
    ((check_status_change freshGone (Except.ok priorActiveOne) "t1").status_history.getLastD
        ⟨"", "", ""⟩).reason ≠ "became unavailable during re-scrape" := by
  decide

/-- C8 (amended): reconciling a prior active record having exactly one history
entry with a fresh inactive record yields a history of exactly two entries:
the prior entries copied verbatim followed by an entry with status
`"inactive"` and reason `"Job became unavailable during re-scrape"`. -/
theorem claim_C8 (prior freshRec : JobData) (t : String)
    (hp : prior.is_active = true) (hf : freshRec.is_active = false)
    (hlen : prior.status_history.length = 1) :
    (check_status_change freshRec (Except.ok prior) t).status_history =
      prior.status_history ++
        [⟨"inactive", t, "Job became unavailable during re-scrape"⟩] ∧
    (check_status_change freshRec (Except.ok prior) t).status_history.length = 2 := by
  have h1 : (check_status_change freshRec (Except.ok prior) t).status_history =
      prior.status_history ++
        [⟨"inactive", t, "Job became unavailable during re-scrape"⟩] := by
    unfold check_status_change
    simp [hp, hf]
  refine ⟨h1, ?_⟩
  rw [h1]
  simp [hlen]

/-- Witness for the amended C8 on concrete records. -/
theorem claim_C8_witness :
    (check_status_change freshGone (Except.ok priorActiveOne) "t1").status_history =
      priorActiveOne.status_history ++
        [⟨"inactive", "t1", "Job became unavailable during re-scrape"⟩] ∧
    (check_status_change freshGone (Except.ok priorActiveOne) "t1").status_history.length = 2 :=
  claim_C8 priorActiveOne freshGone "t1" (by decide) (by decide) (by decide)

/-- C9 (as stated): false.  A first observation that is already inactive is
persisted with a non-empty history: the extractor's unavailable short-circuit
(lines 122-126) already appended one `inactive` entry with reason
`"Job marked as unavailable"`, and `save_job_data` keeps it. -/
theorem claim_C9_counterexample :
    (save_job_data (fresh_job_record "99" "u" "Job Unavailable" "t0") none "t0").map
        JobData.status_history =
      some [⟨"inactive", "t0", "Job marked as unavailable"⟩] ∧
    some [⟨"inactive", "t0", "Job marked as unavailable"⟩] ≠
      some ([] : List HistEntry) := by
  decide

/-- C9 (amended): when the very first observation of an identifier is
inactive, `save_job_data` synthesizes no "first discovered" entry and persists
the fresh record unchanged, so the persisted history consists of exactly the
one `inactive` / `"Job marked as unavailable"` entry created by the
extractor's short-circuit. -/
theorem claim_C9 (jid url t : String) (hid : jid ≠ "") :
    save_job_data (fresh_job_record jid url "Job Unavailable" t) none t =
      some (fresh_job_record jid url "Job Unavailable" t) ∧
    (fresh_job_record jid url "Job Unavailable" t).status_history =
      [⟨"inactive", t, "Job marked as unavailable"⟩] := by
  constructor
  · simp [save_job_data, fresh_unavailable_eq, fresh_job_id_eq, hid]
  · rw [fresh_unavailable_eq]

/-- Witness for the amended C9 on a concrete identifier. -/
theorem claim_C9_witness :
    save_job_data (fresh_job_record "99" "u" "Job Unavailable" "t0") none "t0" =
      some (fresh_job_record "99" "u" "Job Unavailable" "t0") ∧
    (fresh_job_record "99" "u" "Job Unavailable" "t0").status_history =
      [⟨"inactive", "t0", "Job marked as unavailable"⟩] :=
  claim_C9 "99" "u" "t0" (by decide)

/-- C10 (as stated): false at the boundary.  On a page whose count pattern
yields `M = 0` (text "Displaying 30 out of 0 jobs"), the code cannot
distinguish a matched zero from an absent pattern and falls back to 100
pages, not `ceil(0/30) = 0`. -/
theorem claim_C10_counterexample :
    searchTotalJobs ("Displaying 30 out of 0 jobs").toList = some ['0'] ∧
    digitsToNat ['0'] = 0 ∧
    get_total_pages ("Displaying 30 out of 0 jobs").toList = 100 ∧
    (0 + 29) / 30 = 0 ∧ (100 : Nat) ≠ 0 := by
  decide

/-- C10 (amended): when the total-count pattern yields `M > 0` the page count
is `(M + 29) / 30 = ceil(M / 30)` (the least number of 30-job pages covering
`M`); "Displaying 30 out of 954 jobs" gives 32 pages; and when the pattern is
absent or yields 0 the code falls back to 100 pages rather than failing. -/
theorem claim_C10 :
    (∀ (html : List Char) (M : Nat), extract_total_jobs_from_page html = M → 0 < M →
      get_total_pages html = (M + 29) / 30 ∧
      M ≤ 30 * ((M + 29) / 30) ∧ 30 * ((M + 29) / 30) < M + 30) ∧
    get_total_pages ("Displaying 30 out of 954 jobs").toList = 32 ∧
    (∀ html : List Char, extract_total_jobs_from_page html = 0 →
      get_total_pages html = 100) := by
  refine ⟨?_, by decide, ?_⟩
  · intro html M hM hpos
    unfold get_total_pages compute_total_pages
    rw [hM, if_pos hpos]
    refine ⟨rfl, ?_, ?_⟩ <;> omega
  · intro html h0
    unfold get_total_pages compute_total_pages
    rw [h0]
    simp

/-- Witness for the amended C10 on the spec's example page text. -/
theorem claim_C10_witness :
    get_total_pages ("Displaying 30 out of 954 jobs").toList = (954 + 29) / 30 ∧
    954 ≤ 30 * ((954 + 29) / 30) ∧ 30 * ((954 + 29) / 30) < 954 + 30 :=
  claim_C10.1 ("Displaying 30 out of 954 jobs").toList 954 (by decide) (by decide)

theorem updateAssoc_map_fst (l : List (String × String)) (jid u : String) :
    (updateAssoc l jid u).map Prod.fst =
      if jid ∈ l.map Prod.fst then l.map Prod.fst
      else l.map Prod.fst ++ [jid] := by
  induction l with
  | nil => simp [updateAssoc]
  | cons kv rest ih =>
    obtain ⟨k, v⟩ := kv
    by_cases hk : k = jid
    · subst hk
      simp [updateAssoc, apply_ite (List.map Prod.fst)]
      split <;> rfl
    · simp only [updateAssoc, if_neg hk, List.map_cons, ih]
      by_cases hmem : jid ∈ rest.map Prod.fst
      · simp [hmem, Ne.symm hk]
      · simp [hmem, Ne.symm hk]

theorem updateAssoc_vals (l : List (String × String)) (jid u : String)
    (hu : extract_job_id_from_url u = some jid)
    (h : ∀ p ∈ l, extract_job_id_from_url p.2 = some p.1) :
    ∀ p ∈ updateAssoc l jid u, extract_job_id_from_url p.2 = some p.1 := by
  induction l with
  | nil =>
    intro p hp
    simp only [updateAssoc, List.mem_singleton] at hp
    subst hp
    exact hu
  | cons kv rest ih =>
    obtain ⟨k, v⟩ := kv
    intro p hp
    by_cases hk : k = jid
    · subst hk
      simp only [updateAssoc, if_pos rfl] at hp
      rcases List.mem_cons.mp hp with hp1 | hp1
      · by_cases hlen : v.length < u.length
        · rw [if_pos hlen] at hp1
          subst hp1
          exact hu
        · rw [if_neg hlen] at hp1
          subst hp1
          exact h _ (List.mem_cons_self _ _)
      · exact h _ (List.mem_cons_of_mem _ hp1)
    · simp only [updateAssoc, if_neg hk] at hp
      rcases List.mem_cons.mp hp with hp1 | hp1
      · subst hp1
        exact h _ (List.mem_cons_self _ _)
      · exact ih (fun q hq => h q (List.mem_cons_of_mem _ hq)) p hp1

theorem pageStep_good (acc : List (String × String)) (href : String)
    (h : goodAcc acc) : goodAcc (pageStep acc href) := by
  unfold pageStep
  split
  · cases hid : extract_job_id_from_url href with
    | none => exact h
    | some jid =>
      refine ⟨updateAssoc_vals _ _ _ hid h.1, ?_⟩
      rw [updateAssoc_map_fst]
      split
      · exact h.2
      · next hmem =>
        refine h.2.append (List.nodup_singleton _) ?_
        intro a ha hau
        simp only [List.mem_singleton] at hau
        subst hau
        exact hmem ha
  · exact h

theorem foldl_pageStep_good (links : List String) (acc : List (String × String))
    (h : goodAcc acc) : goodAcc (links.foldl pageStep acc) := by
  induction links generalizing acc with
  | nil => exact h
  | cons x rest ih => exact ih _ (pageStep_good _ _ h)

theorem eq_of_fst_eq_of_nodup {l : List (String × String)}
    (hnd : (l.map Prod.fst).Nodup) {p q : String × String}
    (hp : p ∈ l) (hq : q ∈ l) (hpq : p.1 = q.1) : p = q := by
  induction l with
  | nil => simp at hp
  | cons kv rest ih =>
    simp only [List.map_cons, List.nodup_cons] at hnd
    rcases List.mem_cons.mp hp with rfl | hp'
    · rcases List.mem_cons.mp hq with rfl | hq'
      · rfl
      · exact absurd (hpq ▸ List.mem_map_of_mem Prod.fst hq') hnd.1
    · rcases List.mem_cons.mp hq with rfl | hq'
      · exact absurd (hpq ▸ List.mem_map_of_mem Prod.fst hp') hnd.1
      · exact ih hnd.2 hp' hq'

theorem addUnique_nodup (acc : List String) (u : String) (h : acc.Nodup) :
    (addUnique acc u).Nodup := by
  unfold addUnique
  split
  · exact h
  · next hne =>
    refine h.append (List.nodup_singleton _) ?_
    intro a ha hau
    simp only [List.mem_singleton] at hau
    subst hau
    exact hne ha

theorem foldl_addUnique_nodup (us : List String) (acc : List String)
    (h : acc.Nodup) : (us.foldl addUnique acc).Nodup := by
  induction us generalizing acc with
  | nil => exact h
  | cons x rest ih => exact ih _ (addUnique_nodup _ _ h)

theorem foldl_pages_nodup (ps : List (List String)) (acc : List String)
    (h : acc.Nodup) :
    (ps.foldl (fun a p => (extract_job_urls_from_page p).foldl addUnique a)
      acc).Nodup := by
  induction ps generalizing acc with
  | nil => exact h
  | cons p rest ih => exact ih _ (foldl_addUnique_nodup _ _ h)

/-- C1 (as stated): false.  Cross-page aggregation dedups by URL *string*
(`job_url not in all_job_urls`), not by identifier: the same job `123`
reached via an ID-only URL on one page and a descriptive URL on another page
yields two entries in the final discovered set. -/
theorem claim_C1_counterexample :
    get_job_urls_from_search_pages
        [["https://www.onlinejobs.ph/jobseekers/job/123"],
         ["https://www.onlinejobs.ph/jobseekers/job/Writer-123"]] =
      ["https://www.onlinejobs.ph/jobseekers/job/123",
       "https://www.onlinejobs.ph/jobseekers/job/Writer-123"] ∧
    extract_job_id_from_url "https://www.onlinejobs.ph/jobseekers/job/123" =
      some "123" ∧
    extract_job_id_from_url "https://www.onlinejobs.ph/jobseekers/job/Writer-123" =
      some "123" ∧
    "https://www.onlinejobs.ph/jobseekers/job/123" ≠
      "https://www.onlinejobs.ph/jobseekers/job/Writer-123" := by
  decide

/-- C1 (amended): deduplication by identifier happens within a single result
page (a page's extracted URL list never contains two URLs with the same
identifier), while the cross-page aggregate dedups by URL string (each URL
string appears at most once); the same identifier can therefore appear twice
across pages via different strings. -/
theorem claim_C1 :
    (∀ links : List String, ∀ u ∈ extract_job_urls_from_page links,
      ∀ v ∈ extract_job_urls_from_page links,
      extract_job_id_from_url u = extract_job_id_from_url v → u = v) ∧
    (∀ pages : List (List String), (get_job_urls_from_search_pages pages).Nodup) := by
  constructor
  · intro links u hu v hv huv
    have hg : goodAcc (links.foldl pageStep []) :=
      foldl_pageStep_good links [] ⟨by simp, by simp⟩
    unfold extract_job_urls_from_page at hu hv
    obtain ⟨p, hp, hpu⟩ := List.mem_map.mp hu
    obtain ⟨q, hq, hqv⟩ := List.mem_map.mp hv
    have h1 := hg.1 p hp
    have h2 := hg.1 q hq
    rw [hpu] at h1
    rw [hqv] at h2
    rw [h1, h2, Option.some.injEq] at huv
    have hpq := eq_of_fst_eq_of_nodup hg.2 hp hq huv
    rw [← hpu, ← hqv, hpq]
  · intro pages
    cases pages with
    | nil => exact List.nodup_nil
    | cons first rest =>
      exact foldl_pages_nodup rest _ (foldl_addUnique_nodup _ _ List.nodup_nil)

/-- Witness for the amended C1 on a concrete page. -/
theorem claim_C1_witness :
    "https://www.onlinejobs.ph/jobseekers/job/123" =
      "https://www.onlinejobs.ph/jobseekers/job/123" ∧
    (get_job_urls_from_search_pages
      [["https://www.onlinejobs.ph/jobseekers/job/123"]]).Nodup :=
  ⟨claim_C1.1 ["https://www.onlinejobs.ph/jobseekers/job/123"]
      "https://www.onlinejobs.ph/jobseekers/job/123" (by decide)
      "https://www.onlinejobs.ph/jobseekers/job/123" (by decide) rfl,
   claim_C1.2 _⟩

theorem hasSub_iff (pat l : List Char) : hasSub pat l = true ↔ pat <:+: l := by
  induction l with
  | nil => simp [hasSub, List.isPrefixOf_iff_prefix, List.infix_nil]
  | cons c t ih =>
    simp [hasSub, Bool.or_eq_true, List.isPrefixOf_iff_prefix, ih,
      List.infix_cons_iff]

theorem pyStrip_within (l : List Char) : pyStrip l <:+: l := by
  unfold pyStrip
  have h1 : l.dropWhile pySpace <:+ l := List.dropWhile_suffix _
  have h2 : ((l.dropWhile pySpace).reverse.dropWhile pySpace).reverse <+:
      l.dropWhile pySpace := by
    rw [← List.reverse_suffix, List.reverse_reverse]
    exact List.dropWhile_suffix _
  exact h2.isInfix.trans h1.isInfix

theorem skill_filter_mem {sk : List String} {s : String} (hs : s ∈ skill_filter sk) :
    s ≠ "" ∧ 2 < s.length ∧
      hasSub copyrightPat (s.toList.map asciiLower) = false := by
  unfold skill_filter at hs
  obtain ⟨x, hx, hxs⟩ := List.mem_map.mp hs
  have hcond := List.of_mem_filter hx
  simp only [Bool.and_eq_true, Bool.not_eq_true', decide_eq_true_eq] at hcond
  obtain ⟨⟨hne, hlen⟩, hcp⟩ := hcond
  subst hxs
  refine ⟨?_, hlen, ?_⟩
  · intro hcontra
    have hdata := congrArg String.data hcontra
    simp only at hdata
    rw [hdata] at hne
    simp at hne
  · by_contra hcontra
    rw [Bool.not_eq_false] at hcontra
    have hinf : copyrightPat <:+: (pyStrip x.toList).map asciiLower := by
      have h := (hasSub_iff copyrightPat _).mp hcontra
      simpa using h
    have hinf2 : (pyStrip x.toList).map asciiLower <:+: x.toList.map asciiLower :=
      (pyStrip_within _).map _
    have hfull := (hasSub_iff copyrightPat _).mpr (hinf.trans hinf2)
    rw [hfull] at hcp
    simp at hcp

theorem tier_result_mem {t : Option (List String)} {s : String}
    (hs : s ∈ tier_result t) :
    s ≠ "" ∧ 2 < s.length ∧
      hasSub copyrightPat (s.toList.map asciiLower) = false := by
  cases t with
  | none => simp [tier_result] at hs
  | some sk => exact skill_filter_mem (by simpa [tier_result] using hs)

/-- C4 (as stated): false for the structured-markup tier.  Tier 1 (lines
159-161) copies the anchor texts verbatim with no post-filter, so a
two-character skill label such as "C#" is returned even though the claim
requires length strictly greater than 2. -/
theorem claim_C4_counterexample :
    scrape_skills ["C#"] none none = ["C#"] ∧
      ¬ 2 < ("C#" : String).length := by
  decide

/-- C4 (amended): the post-filter holds for the two fallback tiers: whenever
the structured-markup tier produced nothing, every string in the returned
`skill_requirements` is non-empty, has length strictly greater than 2, and
does not contain the substring "copyright" case-insensitively.  The
structured-markup tier itself returns the anchor texts verbatim,
unfiltered. -/
theorem claim_C4 (tier2_split tier3_split : Option (List String)) (s : String)
    (hs : s ∈ scrape_skills [] tier2_split tier3_split) :
    s ≠ "" ∧ 2 < s.length ∧
      hasSub copyrightPat (s.toList.map asciiLower) = false := by
  unfold scrape_skills at hs
  rw [if_neg (by simp)] at hs
  by_cases h2 : tier_result tier2_split ≠ []
  · rw [if_pos h2] at hs
    exact tier_result_mem hs
  · rw [if_neg h2] at hs
    exact tier_result_mem hs

/-- Witness for the amended C4 on a concrete tier-2 candidate list. -/
theorem claim_C4_witness :
    "Customer Service" ≠ "" ∧ 2 < ("Customer Service" : String).length ∧
      hasSub copyrightPat (("Customer Service" : String).toList.map asciiLower) =
        false :=
  claim_C4 (some ["Customer Service"]) none "Customer Service" (by decide)
